import Mathlib

/-!
Shallow embedding of the location-aware discovery and mapping core of the
NyamaConnect application, translated from the JavaScript sources
(src/hooks/useGeolocation.js, src/pages/HomePage.js, src/pages/DashboardPage.js,
src/components/MapComponents.js).  JavaScript numbers are modelled as exact
rationals where only comparisons and rounding occur, and as real numbers for
the trigonometric distance computation; NaN is modelled explicitly by `JSNum`.
-/

namespace Nyama

/-- Characters treated as whitespace by JavaScript string-to-number conversion
(the fragment relevant here: space, tab and line terminators). -/
def jsWhite (ch : Char) : Bool :=
  ch = ' ' || ch = '\t' || ch = '\n' || ch = '\r' || ch = '\x0b' || ch = '\x0c'

/-- Numeric value of a run of decimal digits. -/
def digitsVal (cs : List Char) : ℕ :=
  cs.foldl (fun a ch => 10 * a + (ch.toNat - 48)) 0

/-- Splitting a character list on a separator character, the semantics of
`String.prototype.split` with a one-character separator (the empty string
splits to `[""]`). -/
def splitOnCharFn (sep : Char) : List Char → List (List Char)
  | [] => [[]]
  | c :: t =>
    if c = sep then [] :: splitOnCharFn sep t
    else
      match splitOnCharFn sep t with
      | [] => [[c]]
      | h :: r => (c :: h) :: r

/-- Syntactic shape of a string under JavaScript string-to-number conversion
(decimal fragment): NaN, a signed integer, or a signed decimal with a count of
fractional digits. -/
inductive NumTok where
  | nanTok : NumTok
  | intTok : Bool → ℕ → NumTok
  | decTok : Bool → ℕ → ℕ → ℕ → NumTok
deriving DecidableEq

/-- Tokenising step of the JavaScript `Number(string)` conversion (decimal
fragment): surrounding whitespace is trimmed, the empty string converts to
`0`, an optional sign followed by a decimal literal (`"12"`, `"1.5"`, `".5"`,
`"2."`) is kept, and every other string (letters, hex, exponent forms) is NaN. -/
def jsNumTok (cs : List Char) : NumTok :=
  let t := ((cs.dropWhile jsWhite).reverse.dropWhile jsWhite).reverse
  if t.isEmpty then NumTok.intTok false 0
  else
    let neg := t.headD ' ' == '-'
    let u := if t.headD ' ' == '-' || t.headD ' ' == '+' then t.tail else t
    let ip := u.takeWhile Char.isDigit
    match u.dropWhile Char.isDigit with
    | [] => if ip.isEmpty then NumTok.nanTok else NumTok.intTok neg (digitsVal ip)
    | '.' :: fp =>
      if fp.all Char.isDigit && !(ip.isEmpty && fp.isEmpty) then
        NumTok.decTok neg (digitsVal ip) (digitsVal fp) fp.length
      else NumTok.nanTok
    | _ => NumTok.nanTok

/-- Rational value of a number token; `none` encodes NaN. -/
def tokVal : NumTok → Option ℚ
  | NumTok.nanTok => none
  | NumTok.intTok neg ip => some ((if neg then -1 else 1) * (ip : ℚ))
  | NumTok.decTok neg ip fp fl =>
    some ((if neg then -1 else 1) * ((ip : ℚ) + (fp : ℚ) / 10 ^ fl))

/-- The modelled fragment of `Number(string)` on a character list. -/
def jsNumberChars (cs : List Char) : Option ℚ := tokVal (jsNumTok cs)

/-- Minutes-of-day value computed by `isOpen` from one bound:
`const [h, m] = t.split(":").map(Number)` followed by `h * 60 + m`.
`none` models a NaN result (a missing second component is `undefined`, and
`Number(undefined)` is NaN, which propagates through the arithmetic). -/
def parseMinutes (s : String) : Option ℚ :=
  let parts := splitOnCharFn ':' s.data
  match (parts.get? 0).bind jsNumberChars, (parts.get? 1).bind jsNumberChars with
  | some h, some m => some (h * 60 + m)
  | _, _ => none

/-- Shallow embedding of `isOpen` from src/pages/HomePage.js.  The wall-clock
reading `now.getHours() * 60 + now.getMinutes()` is passed in as
`currentMinutes`.  An absent bound is `none`.  Every JavaScript comparison
against a NaN minutes value is false, which collapses all NaN cases to the
final catch-all `false`. -/
def isOpen (openTime closeTime : Option String) (currentMinutes : ℚ) : Bool :=
  match openTime, closeTime with
  | some ot, some ct =>
    if ot = "" ∨ ct = "" then false
    else
      match parseMinutes ot, parseMinutes ct with
      | some openMinutes, some closeMinutes =>
        if closeMinutes < openMinutes then
          if currentMinutes < openMinutes then
            decide (currentMinutes + 24 * 60 < closeMinutes + 24 * 60) ||
              decide (currentMinutes < closeMinutes + 24 * 60 - 24 * 60)
          else
            decide (currentMinutes ≥ openMinutes) &&
              decide (currentMinutes < closeMinutes + 24 * 60)
        else
          decide (currentMinutes ≥ openMinutes) && decide (currentMinutes < closeMinutes)
      | _, _ => false
  | _, _ => false

/-- A latitude/longitude pair; JavaScript float coordinates are modelled as
exact rationals. -/
structure LatLng where
  lat : ℚ
  lng : ℚ
deriving DecidableEq

/-- A JavaScript number that may be NaN (the distance annotation computed for a
listing without coordinates is NaN). -/
inductive JSNum where
  | nan : JSNum
  | val : ℝ → JSNum

/-- A restaurant document as read from Firestore (src/utils/firestoreService.js
collection layout); optional fields are `none` when absent.  `distance` is the
annotation added by `sortByDistance`. -/
structure Listing where
  id : ℕ
  name : Option String
  city : Option String
  address : Option String
  categories : Option (List String)
  lat : Option ℚ
  lng : Option ℚ
  openTime : Option String
  closeTime : Option String
  distance : Option JSNum

/-- JavaScript `Math.atan2` on real arguments (standard quadrant definition;
signed zero is irrelevant on the domain used by `haversine`). -/
noncomputable def jsAtan2 (y x : ℝ) : ℝ :=
  if 0 < x then Real.arctan (y / x)
  else if x < 0 then
    (if 0 ≤ y then Real.arctan (y / x) + Real.pi else Real.arctan (y / x) - Real.pi)
  else if 0 < y then Real.pi / 2
  else if y < 0 then -(Real.pi / 2)
  else 0

/-- Haversine great-circle distance in kilometres, translated line by line from
`haversine` in src/hooks/useGeolocation.js (Earth radius 6371 km). -/
noncomputable def haversine (lat1 lng1 lat2 lng2 : ℝ) : ℝ :=
  let dLat := (lat2 - lat1) * (Real.pi / 180)
  let dLng := (lng2 - lng1) * (Real.pi / 180)
  let a := Real.sin (dLat / 2) * Real.sin (dLat / 2) +
    Real.cos (lat1 * (Real.pi / 180)) * Real.cos (lat2 * (Real.pi / 180)) *
    Real.sin (dLng / 2) * Real.sin (dLng / 2)
  let c := 2 * jsAtan2 (Real.sqrt a) (Real.sqrt (1 - a))
  6371 * c

/-- The intermediate value `a` of the haversine computation, exposed for the
numeric bounds. -/
noncomputable def havA (lat1 lng1 lat2 lng2 : ℝ) : ℝ :=
  Real.sin ((lat2 - lat1) * (Real.pi / 180) / 2) *
      Real.sin ((lat2 - lat1) * (Real.pi / 180) / 2) +
    Real.cos (lat1 * (Real.pi / 180)) * Real.cos (lat2 * (Real.pi / 180)) *
      Real.sin ((lng2 - lng1) * (Real.pi / 180) / 2) *
      Real.sin ((lng2 - lng1) * (Real.pi / 180) / 2)

/-- Rounding to two decimals, modelling `parseFloat(x.toFixed(2))`.  `toFixed`
picks the nearest hundredth and on ties the larger candidate (ECMA), which is
exactly Mathlib's `round`. -/
noncomputable def round2 (x : ℝ) : ℝ := ((round (x * 100) : ℤ) : ℝ) / 100

/-- One step of the `.map` in `sortByDistance`:
`{ ...item, distance: parseFloat(haversine(c.lat, c.lng, item.lat, item.lng).toFixed(2)) }`.
When the item lacks a coordinate the JavaScript arithmetic on `undefined`
produces NaN, and `toFixed`/`parseFloat` keep NaN. -/
noncomputable def annotate (pos : LatLng) (item : Listing) : Listing :=
  { item with
    distance := some (match item.lat, item.lng with
      | some la, some ln =>
        JSNum.val (round2 (haversine (pos.lat : ℝ) (pos.lng : ℝ) (la : ℝ) (ln : ℝ)))
      | _, _ => JSNum.nan) }

/-- Subtraction of JavaScript numbers: NaN absorbs. -/
def jsSub : JSNum → JSNum → JSNum
  | JSNum.val x, JSNum.val y => JSNum.val (x - y)
  | _, _ => JSNum.nan

/-- Reading an optional `distance` property: an absent property is `undefined`
and arithmetic on `undefined` yields NaN. -/
def jsOfOpt (o : Option JSNum) : JSNum := o.getD JSNum.nan

/-- Comparator value the ES `SortCompare` operation derives from
`(a, b) => a.distance - b.distance`: a NaN comparator result counts as 0. -/
def sortKey (a b : Listing) : ℝ :=
  match jsSub (jsOfOpt a.distance) (jsOfOpt b.distance) with
  | JSNum.nan => 0
  | JSNum.val x => x

/-- The order induced by the comparator: `a` may stay before `b` iff the
comparator value is ≤ 0. -/
def sortLe (a b : Listing) : Prop := sortKey a b ≤ 0

noncomputable instance sortLe.instDecidable : DecidableRel sortLe :=
  fun _ _ => Classical.propDecidable _

/-- Model of `Array.prototype.sort` (ES2019 and later: stable) with the
distance comparator: stable insertion sort under `sortLe`. -/
noncomputable def sortListings (l : List Listing) : List Listing :=
  List.insertionSort sortLe l

/-- `sortByDistance` from src/hooks/useGeolocation.js: identity when no
position is active (`if (!coords) return list`), otherwise annotate every item
with its rounded haversine distance and sort by the comparator. -/
noncomputable def sortByDistance (coords : Option LatLng) (list : List Listing) : List Listing :=
  match coords with
  | none => list
  | some pos => sortListings (list.map (annotate pos))

/-- Forgetting the distance annotation (used to state that only order and
annotation may change). -/
def stripDist (x : Listing) : Listing := { x with distance := none }

/-- The real number under a `val` distance (0 for NaN or absent; used only to
state sortedness of fully annotated lists). -/
def distReal (x : Listing) : ℝ :=
  match x.distance with
  | some (JSNum.val r) => r
  | _ => 0

/-- Does the listing carry both coordinates? -/
def hasCoordsB (x : Listing) : Bool := x.lat.isSome && x.lng.isSome

/-- Lower-casing a string (`String.prototype.toLowerCase`, applied to the
ASCII data appearing in listings). -/
def jsToLower (s : String) : String := String.mk (s.data.map Char.toLower)

/-- Does `hay` start with `needle`? -/
def beginsWith : List Char → List Char → Bool
  | _, [] => true
  | [], _ :: _ => false
  | h :: t, a :: m => (h == a) && beginsWith t m

/-- `String.prototype.includes`: is `needle` a contiguous substring of `hay`? -/
def strIncl : List Char → List Char → Bool
  | [], needle => needle.isEmpty
  | hay@(_ :: t), needle => beginsWith hay needle || strIncl t needle

/-- String-level `includes`. -/
def jsIncludes (hay needle : String) : Bool := strIncl hay.data needle.data

/-- The transient filter state of HomePage: selected district chip, selected
category chip and search text. -/
structure FilterCriteria where
  district : String
  category : String
  query : String
deriving DecidableEq

/-- The client-side filter predicate of HomePage (lines 90–99): district,
category and text criteria combined with `&&`.  Note that the category tokens
in the text match are compared without lower-casing (`c.includes(q)` in the
source), while name, city and address are lower-cased. -/
def matchesFilter (c : FilterCriteria) (r : Listing) : Bool :=
  let matchDist := (c.district == "All Districts") || (r.city == some c.district)
  let matchCat := (c.category == "all") || (r.categories.getD []).contains c.category
  let q := jsToLower c.query
  let matchQ := (q == "") ||
    jsIncludes (jsToLower (r.name.getD "")) q ||
    jsIncludes (jsToLower (r.city.getD "")) q ||
    (r.categories.getD []).any (fun cat => jsIncludes cat q) ||
    jsIncludes (jsToLower (r.address.getD "")) q
  matchDist && matchCat && matchQ

/-- `const filtered = restaurants.filter(...)`. -/
def filterRestaurants (c : FilterCriteria) (l : List Listing) : List Listing :=
  l.filter (matchesFilter c)

/-- `const displayed = gpsActive ? sortByDistance(filtered) : filtered`. -/
noncomputable def displayedRestaurants (gpsActive : Bool) (coords : Option LatLng)
    (c : FilterCriteria) (l : List Listing) : List Listing :=
  if gpsActive then sortByDistance coords (filterRestaurants c l)
  else filterRestaurants c l

/-- The district predicate exactly as the specification words it. -/
def specDistrictPasses (c : FilterCriteria) (r : Listing) : Bool :=
  (c.district == "All Districts") || (r.city == some c.district)

/-- The category predicate exactly as the specification words it. -/
def specCategoryPasses (c : FilterCriteria) (r : Listing) : Bool :=
  (c.category == "all") || (r.categories.getD []).contains c.category

/-- The text predicate as the claim words it: pass-through on the empty query,
else a case-insensitive substring match against any of name, city, address or
each category token. -/
def specTextPassesClaim (c : FilterCriteria) (r : Listing) : Bool :=
  (c.query == "") ||
    jsIncludes (jsToLower (r.name.getD "")) (jsToLower c.query) ||
    jsIncludes (jsToLower (r.city.getD "")) (jsToLower c.query) ||
    (r.categories.getD []).any (fun cat => jsIncludes (jsToLower cat) (jsToLower c.query)) ||
    jsIncludes (jsToLower (r.address.getD "")) (jsToLower c.query)

/-- The filter predicate as the claim words it (all three ANDed, text match
case-insensitive on category tokens as well). -/
def specMatchesClaim (c : FilterCriteria) (r : Listing) : Bool :=
  specDistrictPasses c r && specCategoryPasses c r && specTextPassesClaim c r

/-- The text predicate as amended to the code's behaviour: category tokens are
compared case-sensitively against the lower-cased query. -/
def specTextPassesAmended (c : FilterCriteria) (r : Listing) : Bool :=
  (c.query == "") ||
    jsIncludes (jsToLower (r.name.getD "")) (jsToLower c.query) ||
    jsIncludes (jsToLower (r.city.getD "")) (jsToLower c.query) ||
    (r.categories.getD []).any (fun cat => jsIncludes cat (jsToLower c.query)) ||
    jsIncludes (jsToLower (r.address.getD "")) (jsToLower c.query)

/-- The amended filter predicate: district and category as specified, text
match case-sensitive on category tokens. -/
def specMatchesAmended (c : FilterCriteria) (r : Listing) : Bool :=
  specDistrictPasses c r && specCategoryPasses c r && specTextPassesAmended c r

/-- State of the OwnerMap widget and component: the Leaflet marker position,
the view centre and zoom, and the React `pinCoords` state. -/
structure OwnerMapState where
  marker : LatLng
  center : LatLng
  zoom : ℤ
  pin : LatLng
deriving DecidableEq

/-- Mounting `<OwnerMap initialLat initialLng>`: map centred on the initial
coordinates at zoom 13, draggable marker and `pinCoords` seeded there. -/
def ownerMapMount (initialLat initialLng : ℚ) : OwnerMapState :=
  ⟨⟨initialLat, initialLng⟩, ⟨initialLat, initialLng⟩, 13, ⟨initialLat, initialLng⟩⟩

/-- Rounding to six decimals, modelling `parseFloat(v.toFixed(6))`. -/
def round6 (x : ℚ) : ℚ := ((round (x * 1000000) : ℤ) : ℚ) / 1000000

/-- `updatePin` from OwnerMap: rounds the event coordinates to six decimals,
stores them in `pinCoords` and fires `onPinChange`.  The returned list collects
the fired `onPinChange` payloads. -/
def updatePin (s : OwnerMapState) (latlng : LatLng) : OwnerMapState × List LatLng :=
  let coords : LatLng := ⟨round6 latlng.lat, round6 latlng.lng⟩
  ({ s with pin := coords }, [coords])

/-- Drag-end: the widget has already moved the marker to `e.target.getLatLng()`
when the handler calls `updatePin`. -/
def dragEndEvent (s : OwnerMapState) (latlng : LatLng) : OwnerMapState × List LatLng :=
  updatePin { s with marker := latlng } latlng

/-- Map click: `marker.setLatLng(e.latlng)` then `updatePin(e.latlng)`. -/
def mapClickEvent (s : OwnerMapState) (latlng : LatLng) : OwnerMapState × List LatLng :=
  updatePin { s with marker := latlng } latlng

/-- The prop-sync effect of OwnerMap (MapComponents.js lines 173–182): when the
`initialLat`/`initialLng` props change, reposition the marker, recentre the
view at the current zoom and re-seed `pinCoords` — iff the new props differ
(exact float comparison) from the current marker position.  The effect never
calls `onPinChange`. -/
def externalSync (s : OwnerMapState) (initialLat initialLng : ℚ) :
    OwnerMapState × List LatLng :=
  if s.marker.lat ≠ initialLat ∨ s.marker.lng ≠ initialLng then
    ({ marker := ⟨initialLat, initialLng⟩, center := ⟨initialLat, initialLng⟩,
       zoom := s.zoom, pin := ⟨initialLat, initialLng⟩ }, [])
  else (s, [])

/-- The slice of the dashboard form state read or written by `handleGeocode`. -/
structure DashForm where
  name : String
  city : String
  address : String
  lat : ℚ
  lng : ℚ
deriving DecidableEq

/-- One geocoding result (Nominatim `lat`/`lon` after `parseFloat`). -/
structure GeoResult where
  lat : ℚ
  lon : ℚ
deriving DecidableEq

/-- `handleGeocode` from src/pages/DashboardPage.js as a function of the form
state and the outcome of its single fetch (`Except.error` models a thrown
network or JSON error; there is no retry).  The result is always `Except.ok`
(the `catch` block only logs), carrying the new form and whether the success
toast fired. -/
def handleGeocode (form : DashForm) (fetchResult : Except String (List GeoResult)) :
    Except String (DashForm × Bool) :=
  if form.address = "" then Except.ok (form, false)
  else
    match fetchResult with
    | Except.error _ => Except.ok (form, false)
    | Except.ok data =>
      match data.head? with
      | some g => Except.ok ({ form with lat := g.lat, lng := g.lon }, true)
      | none => Except.ok (form, false)

/-- Visitor position (0.30, 32.58) from the specification scenario. -/
def posKampala : LatLng := ⟨3 / 10, 1629 / 50⟩

/-- Scenario listing A at (0.31, 32.59). -/
def resA : Listing :=
  ⟨1, some "A", none, none, none, some (31 / 100), some (3259 / 100), none, none, none⟩

/-- Scenario listing B at (0.40, 32.70). -/
def resB : Listing :=
  ⟨2, some "B", none, none, none, some (2 / 5), some (327 / 10), none, none, none⟩

/-- Scenario listing C without coordinates. -/
def resC : Listing :=
  ⟨3, some "C", none, none, none, none, none, none, none, none⟩

/-- Evaluation helper: a string with at least two colon fields whose first two
fields tokenise to unsigned integers parses to h·60+m minutes. -/
theorem parseMinutes_eval (s : String) (a b : List Char) (rest : List (List Char))
    (hs : splitOnCharFn ':' s.data = a :: b :: rest) (x y : ℕ)
    (hx : jsNumTok a = NumTok.intTok false x) (hy : jsNumTok b = NumTok.intTok false y) :
    parseMinutes s = some ((x : ℚ) * 60 + (y : ℚ)) := by
  simp only [parseMinutes, hs, List.get?, Option.some_bind, jsNumberChars, hx, hy, tokVal,
    Bool.false_eq_true, if_false, one_mul]

/-- Evaluation helper: a string without a colon has an `undefined` second
field, hence NaN minutes. -/
theorem parseMinutes_single (s : String) (a : List Char)
    (hs : splitOnCharFn ':' s.data = [a]) : parseMinutes s = none := by
  simp only [parseMinutes, hs, List.get?, Option.some_bind, Option.none_bind]
  cases jsNumberChars a <;> rfl

/-- Evaluation helper: a two-field string whose second field is not numeric. -/
theorem parseMinutes_badSecond (s : String) (a b : List Char) (rest : List (List Char))
    (hs : splitOnCharFn ':' s.data = a :: b :: rest)
    (hy : jsNumTok b = NumTok.nanTok) : parseMinutes s = none := by
  simp only [parseMinutes, hs, List.get?, Option.some_bind, jsNumberChars, hy, tokVal]
  cases jsNumTok a <;> rfl

/-- The empty string has no second colon field, so its minutes value is NaN. -/
theorem parseMinutes_empty : parseMinutes "" = none :=
  parseMinutes_single "" [] (by decide)

/-- Unfolding `isOpen` once both bounds have parsed to minute values. -/
theorem isOpen_parsed (s₁ s₂ : String) (o c cur : ℚ)
    (h₁ : parseMinutes s₁ = some o) (h₂ : parseMinutes s₂ = some c) :
    isOpen (some s₁) (some s₂) cur =
      if c < o then
        if cur < o then
          decide (cur + 24 * 60 < c + 24 * 60) || decide (cur < c + 24 * 60 - 24 * 60)
        else decide (cur ≥ o) && decide (cur < c + 24 * 60)
      else decide (cur ≥ o) && decide (cur < c) := by
  have hne : ¬(s₁ = "" ∨ s₂ = "") := by
    rintro (rfl | rfl)
    · rw [parseMinutes_empty] at h₁; exact Option.noConfusion h₁
    · rw [parseMinutes_empty] at h₂; exact Option.noConfusion h₂
  simp only [isOpen, h₁, h₂]
  rw [if_neg hne]

/-- Helper: minutes value of the string `"22:00"`. -/
theorem parseMinutes_s2200 : parseMinutes "22:00" = some 1320 := by
  rw [parseMinutes_eval "22:00" "22".data "00".data [] (by decide) 22 0 (by decide) (by decide)]
  norm_num

/-- Helper: minutes value of the string `"02:00"`. -/
theorem parseMinutes_s0200 : parseMinutes "02:00" = some 120 := by
  rw [parseMinutes_eval "02:00" "02".data "00".data [] (by decide) 2 0 (by decide) (by decide)]
  norm_num

/-- Helper: minutes value of the string `"09:00"`. -/
theorem parseMinutes_s0900 : parseMinutes "09:00" = some 540 := by
  rw [parseMinutes_eval "09:00" "09".data "00".data [] (by decide) 9 0 (by decide) (by decide)]
  norm_num

/-- Helper: minutes value of the string `"17:00"`. -/
theorem parseMinutes_s1700 : parseMinutes "17:00" = some 1020 := by
  rw [parseMinutes_eval "17:00" "17".data "00".data [] (by decide) 17 0 (by decide) (by decide)]
  norm_num

/-- Helper: the malformed string `"09:00:00"` still parses, through its first
two colon fields only. -/
theorem parseMinutes_s090000 : parseMinutes "09:00:00" = some 540 := by
  rw [parseMinutes_eval "09:00:00" "09".data "00".data ["00".data] (by decide) 9 0
    (by decide) (by decide)]
  norm_num

/-- C2: for parsed bounds with close earlier than open (an overnight window)
and a minute-of-day reading in [0, 1440), `isOpen` returns true iff the moment
is at or after the open bound or strictly before the close bound — inclusive
at open, exclusive at close. -/
theorem isOpen_overnight (s₁ s₂ : String) (o c cur : ℚ)
    (h₁ : parseMinutes s₁ = some o) (h₂ : parseMinutes s₂ = some c)
    (hco : c < o) (hc0 : 0 ≤ c) (hcur0 : 0 ≤ cur) (hcur1 : cur < 1440) :
    (isOpen (some s₁) (some s₂) cur = true ↔ (cur ≥ o ∨ cur < c)) := by
  rw [isOpen_parsed s₁ s₂ o c cur h₁ h₂, if_pos hco]
  by_cases hcase : cur < o
  · rw [if_pos hcase]
    simp only [Bool.or_eq_true, decide_eq_true_eq]
    constructor
    · rintro (h | h)
      · exact Or.inr (by linarith)
      · exact Or.inr (by linarith)
    · rintro (h | h)
      · exact absurd hcase (by rw [ge_iff_le] at h; exact not_lt.mpr h)
      · exact Or.inl (by linarith)
  · rw [if_neg hcase]
    simp only [Bool.and_eq_true, decide_eq_true_eq, ge_iff_le]
    constructor
    · rintro ⟨h, _⟩; exact Or.inl h
    · intro _; exact ⟨by linarith [not_lt.mp hcase], by linarith⟩

/-- Witness for C2 at the spec's example: 22:00–02:00, queried at 23:30. -/
theorem isOpen_overnight_witness :
    isOpen (some "22:00") (some "02:00") 1410 = true :=
  (isOpen_overnight "22:00" "02:00" 1320 120 1410 parseMinutes_s2200 parseMinutes_s0200
    (by norm_num) (by norm_num) (by norm_num) (by norm_num)).mpr (Or.inl (by norm_num))

/-- C7: for parsed bounds with open not later than close (a same-day window),
`isOpen` returns true iff open ≤ now < close. -/
theorem isOpen_sameday (s₁ s₂ : String) (o c cur : ℚ)
    (h₁ : parseMinutes s₁ = some o) (h₂ : parseMinutes s₂ = some c)
    (hoc : o ≤ c) :
    (isOpen (some s₁) (some s₂) cur = true ↔ (o ≤ cur ∧ cur < c)) := by
  rw [isOpen_parsed s₁ s₂ o c cur h₁ h₂, if_neg (not_lt.mpr hoc)]
  simp only [Bool.and_eq_true, decide_eq_true_eq, ge_iff_le]

/-- Witness for C7 at the spec's example: 09:00–17:00, queried at 09:00. -/
theorem isOpen_sameday_witness :
    isOpen (some "09:00") (some "17:00") 540 = true :=
  (isOpen_sameday "09:00" "17:00" 540 1020 540 parseMinutes_s0900 parseMinutes_s1700
    (by norm_num)).mpr ⟨le_refl _, by norm_num⟩

/-- C8 counterexample: `"09:00:00"` does not parse as `"HH:MM"` (it has a
third field), yet the code keeps only the first two colon fields and treats it
as 09:00, so `isOpen` can return `true` rather than the claimed `false`. -/
theorem isOpen_malformed_counterexample :
    isOpen (some "09:00:00") (some "17:00") 600 = true := by
  rw [isOpen_parsed "09:00:00" "17:00" 540 1020 600 parseMinutes_s090000 parseMinutes_s1700,
    if_neg (by norm_num : ¬((1020 : ℚ) < 540))]
  simp only [Bool.and_eq_true, decide_eq_true_eq, ge_iff_le]
  norm_num

/-- C8 amended: `isOpen` returns false whenever a bound is absent, empty, or
has a first or second colon field that does not convert to a number; it never
raises (it is a total function).  Strings with extra fields beyond `"HH:MM"`
are not rejected: they are read through their first two fields. -/
theorem isOpen_unknown_closed (ot ct : Option String) (cur : ℚ)
    (h : ot.bind parseMinutes = none ∨ ct.bind parseMinutes = none) :
    isOpen ot ct cur = false := by
  match ot, ct with
  | none, _ => rfl
  | some a, none => rfl
  | some a, some b =>
    simp only [Option.some_bind] at h
    rcases h with h | h
    · cases hb : parseMinutes b
      · simp [isOpen, h, hb]
      · simp [isOpen, h, hb]
    · cases ha : parseMinutes a
      · simp [isOpen, h, ha]
      · simp [isOpen, h, ha]

/-- Helper: `"9am"` has no colon, so its minutes value is NaN. -/
theorem parseMinutes_s9am : parseMinutes "9am" = none :=
  parseMinutes_single "9am" "9am".data (by decide)

/-- Witness for the amended C8: a bound whose hour field is not numeric. -/
theorem isOpen_unknown_closed_witness :
    isOpen (some "9am") (some "17:00") 600 = false :=
  isOpen_unknown_closed (some "9am") (some "17:00") 600
    (Or.inl (by rw [Option.some_bind, parseMinutes_s9am]))

/-- Rounding to six decimals moves a rational by at most half of 1e-6. -/
theorem round6_err (x : ℚ) : |round6 x - x| ≤ 1 / 2000000 := by
  have h := abs_sub_round (x * 1000000)
  have e : round6 x - x = (((round (x * 1000000) : ℤ) : ℚ) - x * 1000000) / 1000000 := by
    rw [round6]; ring
  rw [e, abs_div, abs_sub_comm]
  have habs : |(1000000 : ℚ)| = 1000000 := by norm_num
  rw [habs]
  linarith

/-- C10: a drag-end or map-click event stores in `pinCoords` and passes to
`onPinChange` exactly the raw event coordinates rounded to six decimal places:
the emitted values are integer multiples of 1e-6 (so callers never see more
than six decimals) and differ from the raw coordinates by at most 5e-7. -/
theorem ownerMap_rounds_six (s : OwnerMapState) (p : LatLng) :
    (dragEndEvent s p).2 = [⟨round6 p.lat, round6 p.lng⟩] ∧
    (dragEndEvent s p).1.pin = ⟨round6 p.lat, round6 p.lng⟩ ∧
    (mapClickEvent s p).2 = [⟨round6 p.lat, round6 p.lng⟩] ∧
    (mapClickEvent s p).1.pin = ⟨round6 p.lat, round6 p.lng⟩ ∧
    (∃ a : ℤ, round6 p.lat = (a : ℚ) / 1000000) ∧
    (∃ b : ℤ, round6 p.lng = (b : ℚ) / 1000000) ∧
    |round6 p.lat - p.lat| ≤ 1 / 2000000 ∧ |round6 p.lng - p.lng| ≤ 1 / 2000000 :=
  ⟨rfl, rfl, rfl, rfl, ⟨round (p.lat * 1000000), rfl⟩, ⟨round (p.lng * 1000000), rfl⟩,
    round6_err p.lat, round6_err p.lng⟩

/-- C3 counterexample: an external update only 1e-9 degrees away from the
current value — well within the claimed ~1e-6 epsilon, so the claim demands no
reposition — does reposition marker, view and pin: the code compares exactly. -/
theorem externalSync_epsilon_counterexample :
    |((3187 : ℚ) / 10000 + 1 / 1000000000) - 3187 / 10000| < 1 / 1000000 ∧
    (externalSync (ownerMapMount (3187 / 10000) (4073 / 125))
        ((3187 : ℚ) / 10000 + 1 / 1000000000) (4073 / 125)).1.marker =
      ⟨3187 / 10000 + 1 / 1000000000, 4073 / 125⟩ ∧
    (externalSync (ownerMapMount (3187 / 10000) (4073 / 125))
        ((3187 : ℚ) / 10000 + 1 / 1000000000) (4073 / 125)).1 ≠
      ownerMapMount (3187 / 10000) (4073 / 125) := by
  have hcond : (3187 : ℚ) / 10000 ≠ (3187 : ℚ) / 10000 + 1 / 1000000000 := by norm_num
  have hor : (ownerMapMount ((3187 : ℚ) / 10000) ((4073 : ℚ) / 125)).marker.lat ≠
        (3187 : ℚ) / 10000 + 1 / 1000000000 ∨
      (ownerMapMount ((3187 : ℚ) / 10000) ((4073 : ℚ) / 125)).marker.lng ≠
        (4073 : ℚ) / 125 :=
    Or.inl hcond
  refine ⟨?_, ?_, ?_⟩
  · rw [show ((3187 : ℚ) / 10000 + 1 / 1000000000) - 3187 / 10000 = 1 / 1000000000 by ring,
      abs_of_pos (by norm_num : (0 : ℚ) < 1 / 1000000000)]
    norm_num
  · rw [externalSync, if_pos hor]
  · rw [externalSync, if_pos hor]
    intro h
    exact hcond (congrArg (fun st => st.marker.lat) h).symm

/-- C3 amended: the prop-sync effect repositions the marker, recentres the
view at the unchanged zoom and re-seeds `pinCoords` iff the new coordinates
differ at all — by exact comparison, with no epsilon tolerance — from the
current marker position; an update equal to the marker position changes
nothing; and in neither case does the effect fire `onPinChange`. -/
theorem externalSync_exact (s : OwnerMapState) (la ln : ℚ) :
    ((s.marker.lat = la ∧ s.marker.lng = ln) → externalSync s la ln = (s, [])) ∧
    ((s.marker.lat ≠ la ∨ s.marker.lng ≠ ln) →
      (externalSync s la ln).1 = ⟨⟨la, ln⟩, ⟨la, ln⟩, s.zoom, ⟨la, ln⟩⟩) ∧
    (externalSync s la ln).2 = [] := by
  refine ⟨?_, ?_, ?_⟩
  · rintro ⟨h1, h2⟩
    rw [externalSync, if_neg]
    rintro (h | h)
    · exact h h1
    · exact h h2
  · intro h
    rw [externalSync, if_pos h]
  · rw [externalSync]
    split <;> rfl

/-- Witness for the amended C3: an identical external update is a no-op. -/
theorem externalSync_exact_witness :
    externalSync (ownerMapMount 1 2) 1 2 = (ownerMapMount 1 2, []) :=
  (externalSync_exact (ownerMapMount 1 2) 1 2).1 ⟨rfl, rfl⟩

/-- C5: when the geocode lookup fails — the fetch or JSON decoding threw, or
the result set is empty — `handleGeocode` returns normally (`Except.ok`: the
`catch` only logs, no exception reaches the caller), leaves the form including
its stored `lat`/`lng` unchanged, and fires no success toast.  The handler
consumes exactly one fetch outcome: there is no retry. -/
theorem handleGeocode_failure (f : DashForm) (res : Except String (List GeoResult))
    (h : (∃ e, res = Except.error e) ∨ res = Except.ok []) :
    handleGeocode f res = Except.ok (f, false) := by
  rcases h with ⟨e, rfl⟩ | rfl <;>
    · rw [handleGeocode]
      split <;> rfl

/-- Witness for C5: a thrown network error leaves the form untouched. -/
theorem handleGeocode_failure_witness :
    handleGeocode ⟨"Cafe", "Kampala", "Ggaba Road", 1, 2⟩ (Except.error "network") =
      Except.ok (⟨"Cafe", "Kampala", "Ggaba Road", 1, 2⟩, false) :=
  handleGeocode_failure ⟨"Cafe", "Kampala", "Ggaba Road", 1, 2⟩ (Except.error "network")
    (Or.inl ⟨"network", rfl⟩)

/-- Inserting into a chain yields a chain, given totality of the order. -/
theorem chain'_orderedInsert {α : Type} (r : α → α → Prop) [DecidableRel r]
    (htot : ∀ x y, r x y ∨ r y x) (a : α) (l : List α) (hc : List.Chain' r l) :
    List.Chain' r (List.orderedInsert r a l) := by
  induction l with
  | nil => exact List.chain'_singleton a
  | cons b t ih =>
    rw [List.orderedInsert]
    by_cases hab : r a b
    · rw [if_pos hab]
      exact List.chain'_cons.mpr ⟨hab, hc⟩
    · rw [if_neg hab]
      have hba : r b a := (htot a b).resolve_left hab
      have hins := ih hc.tail
      rw [List.chain'_cons']
      refine ⟨?_, hins⟩
      intro y hy
      cases t with
      | nil =>
        simp only [List.orderedInsert, List.head?_cons, Option.mem_def,
          Option.some.injEq] at hy
        subst hy; exact hba
      | cons c t' =>
        rw [List.orderedInsert] at hy
        by_cases hac : r a c
        · rw [if_pos hac] at hy
          simp only [List.head?_cons, Option.mem_def, Option.some.injEq] at hy
          subst hy; exact hba
        · rw [if_neg hac] at hy
          simp only [List.head?_cons, Option.mem_def, Option.some.injEq] at hy
          subst hy
          exact (List.chain'_cons.mp hc).1

/-- A list that is already a chain is a fixed point of insertion sort. -/
theorem insertionSort_of_chain' {α : Type} (r : α → α → Prop) [DecidableRel r]
    (l : List α) (hc : List.Chain' r l) : List.insertionSort r l = l := by
  induction l with
  | nil => rfl
  | cons a t ih =>
    rw [List.insertionSort, ih hc.tail]
    cases t with
    | nil => rfl
    | cons b t' => exact List.orderedInsert_of_le r t' (List.chain'_cons.mp hc).1

/-- For a total order the output of insertion sort is a chain. -/
theorem chain'_insertionSort {α : Type} (r : α → α → Prop) [DecidableRel r]
    (htot : ∀ x y, r x y ∨ r y x) (l : List α) :
    List.Chain' r (List.insertionSort r l) := by
  induction l with
  | nil => exact List.chain'_nil
  | cons a t ih =>
    rw [List.insertionSort]
    exact chain'_orderedInsert r htot a _ ih

/-- For a total order insertion sort is idempotent — even when the order is
not transitive, as with the NaN comparator. -/
theorem insertionSort_idem {α : Type} (r : α → α → Prop) [DecidableRel r]
    (htot : ∀ x y, r x y ∨ r y x) (l : List α) :
    List.insertionSort r (List.insertionSort r l) = List.insertionSort r l :=
  insertionSort_of_chain' r _ (chain'_insertionSort r htot l)

/-- Inserting an element the filter rejects does not change the filtrate. -/
theorem filter_orderedInsert_of_neg {α : Type} (r : α → α → Prop) [DecidableRel r]
    (p : α → Bool) (a : α) (hpa : p a = false) (l : List α) :
    (List.orderedInsert r a l).filter p = l.filter p := by
  induction l with
  | nil => simp [List.orderedInsert, hpa]
  | cons b t ih =>
    rw [List.orderedInsert]
    by_cases hab : r a b
    · rw [if_pos hab, List.filter_cons_of_neg (by simp [hpa])]
    · rw [if_neg hab]
      rw [List.filter_cons, List.filter_cons, ih]

/-- Inserting an element that sorts before everything prepends it. -/
theorem filter_orderedInsert_of_top {α : Type} (r : α → α → Prop) [DecidableRel r]
    (p : α → Bool) (a : α) (hpa : p a = true) (htop : ∀ y, r a y) (l : List α) :
    (List.orderedInsert r a l).filter p = a :: l.filter p := by
  cases l with
  | nil => simp [List.orderedInsert, hpa]
  | cons b t =>
    rw [List.orderedInsert_of_le r t (htop b), List.filter_cons_of_pos (by simp [hpa])]

/-- Elements that compare `r`-below everything (here: NaN-keyed elements) are
left by the sort exactly where stability puts them: the filtrate is unchanged. -/
theorem filter_insertionSort_invariant {α : Type} (r : α → α → Prop) [DecidableRel r]
    (p : α → Bool) (l : List α) (hp : ∀ x ∈ l, p x = true → ∀ y, r x y) :
    (List.insertionSort r l).filter p = l.filter p := by
  induction l with
  | nil => rfl
  | cons a t ih =>
    have hpt : ∀ x ∈ t, p x = true → ∀ y, r x y :=
      fun x hx => hp x (List.mem_cons_of_mem a hx)
    rw [List.insertionSort]
    by_cases hpa : p a = true
    · rw [filter_orderedInsert_of_top r p a hpa (hp a (List.mem_cons_self a t) hpa),
        ih hpt, List.filter_cons_of_pos (by simp [hpa])]
    · have hpa' : p a = false := by
        cases h : p a
        · rfl
        · exact absurd h hpa
      rw [filter_orderedInsert_of_neg r p a hpa', ih hpt,
        List.filter_cons_of_neg (by simp [hpa'])]

/-- Inserting into a pairwise-sorted list of well-behaved elements preserves
pairwise sortedness (transitivity and totality only needed on elements
satisfying `P`). -/
theorem pairwise_orderedInsert {α : Type} (r : α → α → Prop) [DecidableRel r]
    (P : α → Prop) (htrans : ∀ x y z, P x → P y → P z → r x y → r y z → r x z)
    (htot : ∀ x y, r x y ∨ r y x) (a : α) (ha : P a) (l : List α)
    (hl : ∀ x ∈ l, P x) (hp : List.Pairwise r l) :
    List.Pairwise r (List.orderedInsert r a l) := by
  induction l with
  | nil => simp [List.orderedInsert]
  | cons b t ih =>
    have hPb : P b := hl b (List.mem_cons_self b t)
    have hPt : ∀ x ∈ t, P x := fun x hx => hl x (List.mem_cons_of_mem b hx)
    rcases List.pairwise_cons.mp hp with ⟨hbt, hpt⟩
    rw [List.orderedInsert]
    by_cases hab : r a b
    · rw [if_pos hab]
      refine List.pairwise_cons.mpr ⟨?_, hp⟩
      intro y hy
      rcases List.mem_cons.mp hy with rfl | hyt
      · exact hab
      · exact htrans a b y ha hPb (hPt y hyt) hab (hbt y hyt)
    · rw [if_neg hab]
      refine List.pairwise_cons.mpr ⟨?_, ih hPt hpt⟩
      intro y hy
      rcases (List.mem_orderedInsert r).mp hy with rfl | hyt
      · exact (htot _ b).resolve_left hab
      · exact hbt y hyt

/-- Insertion sort of a list of well-behaved elements is pairwise sorted. -/
theorem pairwise_insertionSort {α : Type} (r : α → α → Prop) [DecidableRel r]
    (P : α → Prop) (htrans : ∀ x y z, P x → P y → P z → r x y → r y z → r x z)
    (htot : ∀ x y, r x y ∨ r y x) (l : List α) (hl : ∀ x ∈ l, P x) :
    List.Pairwise r (List.insertionSort r l) := by
  induction l with
  | nil => exact List.Pairwise.nil
  | cons a t ih =>
    rw [List.insertionSort]
    refine pairwise_orderedInsert r P htrans htot a (hl a (List.mem_cons_self a t)) _ ?_
      (ih (fun x hx => hl x (List.mem_cons_of_mem a hx)))
    intro x hx
    exact hl x (List.mem_cons_of_mem a ((List.mem_insertionSort r).mp hx))

/-- The listing comparator order is total (NaN-keyed pairs compare 0 ≤ 0 both
ways; real-keyed pairs by totality of ≤ on ℝ). -/
theorem sortLe_total (a b : Listing) : sortLe a b ∨ sortLe b a := by
  unfold sortLe sortKey
  cases jsOfOpt a.distance with
  | nan =>
    cases jsOfOpt b.distance with
    | nan => left; simp [jsSub]
    | val y => left; simp [jsSub]
  | val x =>
    cases jsOfOpt b.distance with
    | nan => left; simp [jsSub]
    | val y =>
      simp only [jsSub]
      rcases le_total x y with h | h
      · left; simpa using by linarith
      · right; simpa using by linarith

/-- A listing whose distance is NaN (or absent) sorts weakly before anything. -/
theorem sortLe_of_nan_left (a : Listing) (ha : jsOfOpt a.distance = JSNum.nan)
    (b : Listing) : sortLe a b := by
  unfold sortLe sortKey
  rw [ha]
  cases jsOfOpt b.distance <;> simp [jsSub]

/-- Anything sorts weakly before a listing whose distance is NaN. -/
theorem sortLe_of_nan_right (b : Listing) (hb : jsOfOpt b.distance = JSNum.nan)
    (a : Listing) : sortLe a b := by
  unfold sortLe sortKey
  rw [hb]
  cases jsOfOpt a.distance <;> simp [jsSub]

/-- On real-keyed listings the comparator order is the order of the keys. -/
theorem sortLe_val (a b : Listing) (x y : ℝ) (hx : a.distance = some (JSNum.val x))
    (hy : b.distance = some (JSNum.val y)) : (sortLe a b ↔ x ≤ y) := by
  unfold sortLe sortKey jsOfOpt
  rw [hx, hy]
  simp only [Option.getD_some, jsSub]
  constructor <;> intro h <;> linarith

/-- Re-annotating an annotated listing changes nothing: the annotation depends
only on the coordinates, which it preserves. -/
theorem annotate_idem (pos : LatLng) (x : Listing) :
    annotate pos (annotate pos x) = annotate pos x := rfl

/-- Stripping the annotation undoes annotating. -/
theorem stripDist_annotate (pos : LatLng) (x : Listing) :
    stripDist (annotate pos x) = stripDist x := rfl

/-- C9: `sortByDistance` never changes the membership of the list — modulo the
distance annotation its output is a permutation of its input; it is idempotent;
and without an active position it is the identity with no annotation. -/
theorem sortByDistance_algebra (coords : Option LatLng) (l : List Listing) :
    ((sortByDistance coords l).map stripDist).Perm (l.map stripDist) ∧
    sortByDistance coords (sortByDistance coords l) = sortByDistance coords l ∧
    sortByDistance none l = l := by
  refine ⟨?_, ?_, rfl⟩
  · cases coords with
    | none => exact List.Perm.refl _
    | some pos =>
      have h1 : (sortListings (l.map (annotate pos))).Perm (l.map (annotate pos)) :=
        List.perm_insertionSort sortLe _
      have h2 := h1.map stripDist
      have h3 : (l.map (annotate pos)).map stripDist = l.map stripDist := by
        rw [List.map_map]
        exact List.map_congr_left fun x _ => stripDist_annotate pos x
      rw [sortByDistance]
      exact h3 ▸ h2
  · cases coords with
    | none => rfl
    | some pos =>
      show sortListings ((sortListings (l.map (annotate pos))).map (annotate pos)) =
        sortListings (l.map (annotate pos))
      have hfix : (sortListings (l.map (annotate pos))).map (annotate pos) =
          sortListings (l.map (annotate pos)) := by
        have hall : ∀ y ∈ sortListings (l.map (annotate pos)), annotate pos y = y := by
          intro y hy
          have hmem : y ∈ l.map (annotate pos) := (List.mem_insertionSort sortLe).mp hy
          rcases List.mem_map.mp hmem with ⟨x, _, rfl⟩
          exact annotate_idem pos x
        calc (sortListings (l.map (annotate pos))).map (annotate pos)
            = (sortListings (l.map (annotate pos))).map id :=
              List.map_congr_left fun y hy => hall y hy
          _ = sortListings (l.map (annotate pos)) := List.map_id _
      rw [hfix]
      exact insertionSort_idem sortLe sortLe_total _

/-- C6: when every listing has coordinates and a position is active,
`sortByDistance` returns a permutation of the annotated input in which every
listing carries the rounded (two decimals) haversine distance (Earth radius
6371 km) from the position, and the output is sorted ascending by that
distance. -/
theorem sortByDistance_allCoords (pos : LatLng) (l : List Listing)
    (h : ∀ x ∈ l, x.lat.isSome = true ∧ x.lng.isSome = true) :
    (sortByDistance (some pos) l).Perm (l.map (annotate pos)) ∧
    (∀ x ∈ sortByDistance (some pos) l, ∃ la ln : ℚ, x.lat = some la ∧ x.lng = some ln ∧
      x.distance = some (JSNum.val (round2
        (haversine (pos.lat : ℝ) (pos.lng : ℝ) (la : ℝ) (ln : ℝ))))) ∧
    List.Pairwise (fun a b => distReal a ≤ distReal b) (sortByDistance (some pos) l) := by
  simp only [sortByDistance, sortListings]
  have hP : ∀ x ∈ l.map (annotate pos), ∃ rv : ℝ, x.distance = some (JSNum.val rv) := by
    intro x hx
    rcases List.mem_map.mp hx with ⟨y, hyl, rfl⟩
    rcases Option.isSome_iff_exists.mp (h y hyl).1 with ⟨la, hla⟩
    rcases Option.isSome_iff_exists.mp (h y hyl).2 with ⟨ln, hln⟩
    exact ⟨round2 (haversine (pos.lat : ℝ) (pos.lng : ℝ) (la : ℝ) (ln : ℝ)),
      by simp [annotate, hla, hln]⟩
  refine ⟨List.perm_insertionSort sortLe _, ?_, ?_⟩
  · intro x hx
    have hx' : x ∈ l.map (annotate pos) := (List.mem_insertionSort sortLe).mp hx
    rcases List.mem_map.mp hx' with ⟨y, hyl, rfl⟩
    rcases Option.isSome_iff_exists.mp (h y hyl).1 with ⟨la, hla⟩
    rcases Option.isSome_iff_exists.mp (h y hyl).2 with ⟨ln, hln⟩
    exact ⟨la, ln, hla, hln, by simp [annotate, hla, hln]⟩
  · have htrans : ∀ x y z : Listing, (∃ rv : ℝ, x.distance = some (JSNum.val rv)) →
        (∃ rv : ℝ, y.distance = some (JSNum.val rv)) →
        (∃ rv : ℝ, z.distance = some (JSNum.val rv)) →
        sortLe x y → sortLe y z → sortLe x z := by
      rintro x y z ⟨dx, hdx⟩ ⟨dy, hdy⟩ ⟨dz, hdz⟩ hxy hyz
      rw [sortLe_val x y dx dy hdx hdy] at hxy
      rw [sortLe_val y z dy dz hdy hdz] at hyz
      exact (sortLe_val x z dx dz hdx hdz).mpr (le_trans hxy hyz)
    have hpair := pairwise_insertionSort sortLe
      (fun x => ∃ rv : ℝ, x.distance = some (JSNum.val rv)) htrans sortLe_total
      (l.map (annotate pos)) hP
    refine List.Pairwise.imp_of_mem ?_ hpair
    intro a b hma hmb hab
    rcases hP a ((List.mem_insertionSort sortLe).mp hma) with ⟨da, hda⟩
    rcases hP b ((List.mem_insertionSort sortLe).mp hmb) with ⟨db, hdb⟩
    have hle := (sortLe_val a b da db hda hdb).mp hab
    simp only [distReal, hda, hdb]
    exact hle

/-- Witness for C6 on the two coordinate-bearing scenario listings. -/
theorem sortByDistance_allCoords_witness :
    List.Pairwise (fun a b => distReal a ≤ distReal b)
      (sortByDistance (some posKampala) [resA, resB]) :=
  (sortByDistance_allCoords posKampala [resA, resB] (by decide)).2.2

/-- The filter reads no field that annotation changes. -/
theorem matchesFilter_annotate (c : FilterCriteria) (pos : LatLng) (y : Listing) :
    matchesFilter c (annotate pos y) = matchesFilter c y := rfl

/-- Lower-casing preserves emptiness, so testing the lower-cased query against
the empty string is testing the query itself. -/
theorem jsToLower_eq_empty (s : String) : (jsToLower s == "") = (s == "") := by
  cases s with
  | mk data =>
    cases data with
    | nil => rfl
    | cons c t => rfl

/-- The code's filter predicate coincides with the amended specification
predicate. -/
theorem matchesFilter_eq_amended (c : FilterCriteria) (r : Listing) :
    matchesFilter c r = specMatchesAmended c r := by
  simp only [matchesFilter, specMatchesAmended, specDistrictPasses, specCategoryPasses,
    specTextPassesAmended, jsToLower_eq_empty]

/-- C4 counterexample: with query "Pilau" and a listing whose only match is
its category token "Pilau", the claimed case-insensitive text predicate keeps
the listing, but the code lower-cases only the query, compares the category
token case-sensitively, and drops it. -/
theorem filter_category_case_counterexample :
    specMatchesClaim ⟨"All Districts", "all", "Pilau"⟩
      ⟨7, none, none, none, some ["Pilau"], none, none, none, none, none⟩ = true ∧
    filterRestaurants ⟨"All Districts", "all", "Pilau"⟩
      [⟨7, none, none, none, some ["Pilau"], none, none, none, none, none⟩] = [] :=
  ⟨rfl, rfl⟩

/-- C4 amended: the filter keeps exactly the listings passing the three
predicates ANDed, where district and category are as specified and the text
predicate lower-cases the query and the name, city and address fields but
compares category tokens case-sensitively; with all three sentinel values it
is the identity; and sorting runs after filtering — every displayed listing
still passes the filter. -/
theorem filter_pipeline (c : FilterCriteria) (l : List Listing) :
    filterRestaurants c l = l.filter (specMatchesAmended c) ∧
    filterRestaurants ⟨"All Districts", "all", ""⟩ l = l ∧
    (∀ coords : Option LatLng, ∀ x ∈ displayedRestaurants true coords c l,
      matchesFilter c x = true) := by
  refine ⟨List.filter_congr fun x _ => matchesFilter_eq_amended c x,
    List.filter_eq_self.mpr fun x _ => rfl, ?_⟩
  intro coords x hx
  simp only [displayedRestaurants, if_true] at hx
  cases coords with
  | none => exact (List.mem_filter.mp hx).2
  | some pos =>
    simp only [sortByDistance, sortListings] at hx
    have hx' : x ∈ (filterRestaurants c l).map (annotate pos) :=
      (List.mem_insertionSort sortLe).mp hx
    rcases List.mem_map.mp hx' with ⟨y, hyl, rfl⟩
    rw [matchesFilter_annotate]
    exact (List.mem_filter.mp hyl).2

/-- Unfolding `haversine` through its internal values. -/
theorem haversine_eq (lat1 lng1 lat2 lng2 : ℝ) :
    haversine lat1 lng1 lat2 lng2 =
      6371 * (2 * jsAtan2 (Real.sqrt (havA lat1 lng1 lat2 lng2))
        (Real.sqrt (1 - havA lat1 lng1 lat2 lng2))) := rfl

/-- On the haversine domain, `atan2(√a, √(1-a))` is `arcsin √a`. -/
theorem jsAtan2_sqrt (a : ℝ) (h0 : 0 ≤ a) (h1 : a < 1) :
    jsAtan2 (Real.sqrt a) (Real.sqrt (1 - a)) = Real.arcsin (Real.sqrt a) := by
  have hx : 0 < Real.sqrt (1 - a) := Real.sqrt_pos.mpr (by linarith)
  rw [jsAtan2, if_pos hx, Real.arctan_eq_arcsin]
  congr 1
  have hsa : Real.sqrt a ^ 2 = a := Real.sq_sqrt h0
  have hs1a : Real.sqrt (1 - a) ^ 2 = 1 - a := Real.sq_sqrt (by linarith)
  have h1a : (0 : ℝ) < 1 - a := by linarith
  have hne : Real.sqrt (1 - a) ≠ 0 := ne_of_gt hx
  have key : 1 + (Real.sqrt a / Real.sqrt (1 - a)) ^ 2 = 1 / (1 - a) := by
    rw [div_pow, hsa, hs1a]
    field_simp
  rw [key, one_div, Real.sqrt_inv]
  field_simp

/-- Upper bound for `arcsin √a` through the cubic lower bound on sin. -/
theorem arcsin_sqrt_le (a t : ℝ) (ht0 : 0 < t) (ht1 : t ≤ 1)
    (htp : t ≤ Real.pi / 2) (hb : a ≤ (t - t ^ 3 / 4) ^ 2) :
    Real.arcsin (Real.sqrt a) ≤ t := by
  have ht3 : t ^ 3 ≤ t := by
    nlinarith [mul_nonneg (mul_nonneg ht0.le (sub_nonneg.mpr ht1))
      (by linarith : (0 : ℝ) ≤ 1 + t)]
  have hsub : 0 < t - t ^ 3 / 4 := by linarith
  have h1 : Real.sqrt a ≤ t - t ^ 3 / 4 := by
    calc Real.sqrt a ≤ Real.sqrt ((t - t ^ 3 / 4) ^ 2) := Real.sqrt_le_sqrt hb
      _ = t - t ^ 3 / 4 := Real.sqrt_sq hsub.le
  have h2 : t - t ^ 3 / 4 < Real.sin t := Real.sin_gt_sub_cube ht0 ht1
  have h3 : Real.arcsin (Real.sqrt a) ≤ Real.arcsin (Real.sin t) :=
    Real.monotone_arcsin (by linarith)
  rwa [Real.arcsin_sin (by linarith [Real.pi_pos]) htp] at h3

/-- Lower bound for `arcsin √a` through `sin t ≤ t`. -/
theorem le_arcsin_sqrt (a t : ℝ) (ht0 : 0 ≤ t) (htp : t ≤ Real.pi / 2)
    (hb : t ^ 2 ≤ a) : t ≤ Real.arcsin (Real.sqrt a) := by
  have h1 : t ≤ Real.sqrt a := by
    calc t = Real.sqrt (t ^ 2) := (Real.sqrt_sq ht0).symm
      _ ≤ Real.sqrt a := Real.sqrt_le_sqrt hb
  have h2 : Real.sin t ≤ t := by
    rcases eq_or_lt_of_le ht0 with h | h
    · rw [← h]; simp
    · exact (Real.sin_lt h).le
  have h3 : Real.arcsin (Real.sin t) ≤ Real.arcsin (Real.sqrt a) :=
    Real.monotone_arcsin (by linarith)
  rwa [Real.arcsin_sin (by linarith [Real.pi_pos]) htp] at h3

/-- On `[0, π]` the square of the sine is at most the square of the angle. -/
theorem sin_sq_le (x : ℝ) (h0 : 0 ≤ x) (hx : x ≤ Real.pi) :
    Real.sin x * Real.sin x ≤ x * x := by
  have h1 : 0 ≤ Real.sin x := Real.sin_nonneg_of_nonneg_of_le_pi h0 hx
  have h2 : Real.sin x ≤ x := by
    rcases eq_or_lt_of_le h0 with h | h
    · rw [← h]; simp
    · exact (Real.sin_lt h).le
  exact mul_le_mul h2 h2 h1 h0

set_option maxHeartbeats 1600000 in
/-- Scenario bound: the distance from (0.30, 32.58) to A = (0.31, 32.59) is
at most 2 km. -/
theorem hav_A_le_two :
    haversine (3 / 10 : ℝ) (1629 / 50) (31 / 100) (3259 / 100) ≤ 2 := by
  have hpigt : (3.14 : ℝ) < Real.pi := Real.pi_gt_d2
  have hpilt : Real.pi < 3.15 := Real.pi_lt_d2
  have hpipos : (0 : ℝ) < Real.pi := Real.pi_pos
  have hpisq : Real.pi * Real.pi ≤ 3.15 * 3.15 := by nlinarith
  have hm1 : ((31 : ℝ) / 100 - 3 / 10) * (Real.pi / 180) / 2 = Real.pi * (1 / 36000) := by
    ring
  have hm2 : ((3259 : ℝ) / 100 - 1629 / 50) * (Real.pi / 180) / 2 = Real.pi * (1 / 36000) := by
    ring
  have hx0 : (0 : ℝ) ≤ Real.pi * (1 / 36000) := by positivity
  have hxpi : Real.pi * (1 / 36000) ≤ Real.pi := by linarith
  have hs := sin_sq_le (Real.pi * (1 / 36000)) hx0 hxpi
  have hc1le : Real.cos ((3 : ℝ) / 10 * (Real.pi / 180)) ≤ 1 := Real.cos_le_one _
  have hc2le : Real.cos ((31 : ℝ) / 100 * (Real.pi / 180)) ≤ 1 := Real.cos_le_one _
  have hc1ge := Real.one_sub_sq_div_two_le_cos (x := (3 : ℝ) / 10 * (Real.pi / 180))
  have hc2ge := Real.one_sub_sq_div_two_le_cos (x := (31 : ℝ) / 100 * (Real.pi / 180))
  have hc10 : 0 ≤ Real.cos ((3 : ℝ) / 10 * (Real.pi / 180)) := by nlinarith
  have hc20 : 0 ≤ Real.cos ((31 : ℝ) / 100 * (Real.pi / 180)) := by nlinarith
  have haup : havA (3 / 10 : ℝ) (1629 / 50) (31 / 100) (3259 / 100) ≤
      2 * (Real.pi * (1 / 36000) * (Real.pi * (1 / 36000))) := by
    simp only [havA]
    rw [hm1, hm2]
    nlinarith [hs, mul_self_nonneg (Real.sin (Real.pi * (1 / 36000))),
      mul_le_one₀ hc1le hc20 hc2le, mul_nonneg hc10 hc20]
  have ha0 : 0 ≤ havA (3 / 10 : ℝ) (1629 / 50) (31 / 100) (3259 / 100) := by
    simp only [havA]
    rw [hm1, hm2]
    nlinarith [mul_nonneg hc10 hc20, mul_self_nonneg (Real.sin (Real.pi * (1 / 36000)))]
  have hxx : 2 * (Real.pi * (1 / 36000) * (Real.pi * (1 / 36000))) ≤
      ((1 : ℝ) / 6371 - (1 / 6371) ^ 3 / 4) ^ 2 := by nlinarith [hpisq]
  have hsmall : ((1 : ℝ) / 6371 - (1 / 6371) ^ 3 / 4) ^ 2 < 1 := by norm_num
  have ha1 : havA (3 / 10 : ℝ) (1629 / 50) (31 / 100) (3259 / 100) < 1 := by linarith
  rw [haversine_eq, jsAtan2_sqrt _ ha0 ha1]
  have harc := arcsin_sqrt_le (havA (3 / 10 : ℝ) (1629 / 50) (31 / 100) (3259 / 100))
    (1 / 6371) (by norm_num) (by norm_num) (by linarith [hpigt]) (by linarith)
  linarith

set_option maxHeartbeats 1600000 in
/-- Scenario bound: the distance from (0.30, 32.58) to B = (0.40, 32.70) is
at least 3 km. -/
theorem hav_B_ge_three :
    3 ≤ haversine (3 / 10 : ℝ) (1629 / 50) (2 / 5) (327 / 10) := by
  have hpigt : (3.14 : ℝ) < Real.pi := Real.pi_gt_d2
  have hpilt : Real.pi < 3.15 := Real.pi_lt_d2
  have hpipos : (0 : ℝ) < Real.pi := Real.pi_pos
  have hpisq : Real.pi * Real.pi ≤ 3.15 * 3.15 := by nlinarith
  have hcube3 : Real.pi ^ 3 ≤ (3.15 : ℝ) ^ 3 := by nlinarith [hpisq, hpipos, hpilt]
  have hm1 : ((2 : ℝ) / 5 - 3 / 10) * (Real.pi / 180) / 2 = Real.pi * (1 / 3600) := by ring
  have hm2 : ((327 : ℝ) / 10 - 1629 / 50) * (Real.pi / 180) / 2 = Real.pi * (1 / 3000) := by
    ring
  have hv0 : (0 : ℝ) < Real.pi * (1 / 3000) := by positivity
  have hv1 : Real.pi * (1 / 3000) ≤ 1 := by linarith
  have hsin := Real.sin_gt_sub_cube hv0 hv1
  have hsge : (1046 : ℝ) / 1000000 ≤ Real.sin (Real.pi * (1 / 3000)) := by
    nlinarith [hsin, hcube3, hpigt]
  have hs0 : 0 ≤ Real.sin (Real.pi * (1 / 3000)) := by linarith
  have hc1ge := Real.one_sub_sq_div_two_le_cos (x := (3 : ℝ) / 10 * (Real.pi / 180))
  have hc3ge := Real.one_sub_sq_div_two_le_cos (x := (2 : ℝ) / 5 * (Real.pi / 180))
  have hc1 : (9999 : ℝ) / 10000 ≤ Real.cos ((3 : ℝ) / 10 * (Real.pi / 180)) := by
    nlinarith [hc1ge, hpisq]
  have hc3 : (9999 : ℝ) / 10000 ≤ Real.cos ((2 : ℝ) / 5 * (Real.pi / 180)) := by
    nlinarith [hc3ge, hpisq]
  have h13 : (9999 : ℝ) / 10000 * (9999 / 10000) ≤
      Real.cos ((3 : ℝ) / 10 * (Real.pi / 180)) * Real.cos ((2 : ℝ) / 5 * (Real.pi / 180)) :=
    mul_le_mul hc1 hc3 (by norm_num) (le_trans (by norm_num) hc1)
  have hss : (1046 : ℝ) / 1000000 * (1046 / 1000000) ≤
      Real.sin (Real.pi * (1 / 3000)) * Real.sin (Real.pi * (1 / 3000)) :=
    mul_le_mul hsge hsge (by norm_num) hs0
  have hprod : ((9999 : ℝ) / 10000 * (9999 / 10000)) * ((1046 : ℝ) / 1000000 * (1046 / 1000000)) ≤
      (Real.cos ((3 : ℝ) / 10 * (Real.pi / 180)) * Real.cos ((2 : ℝ) / 5 * (Real.pi / 180))) *
        (Real.sin (Real.pi * (1 / 3000)) * Real.sin (Real.pi * (1 / 3000))) :=
    mul_le_mul h13 hss (by positivity) (le_trans (by norm_num) h13)
  have halow : ((3 : ℝ) / 12742) ^ 2 ≤ havA (3 / 10 : ℝ) (1629 / 50) (2 / 5) (327 / 10) := by
    simp only [havA]
    rw [hm1, hm2]
    nlinarith [hprod, mul_self_nonneg (Real.sin (Real.pi * (1 / 3600)))]
  have hup : havA (3 / 10 : ℝ) (1629 / 50) (2 / 5) (327 / 10) < 1 := by
    simp only [havA]
    rw [hm1, hm2]
    have hu0 : (0 : ℝ) ≤ Real.pi * (1 / 3600) := by positivity
    have hupi : Real.pi * (1 / 3600) ≤ Real.pi := by linarith
    have hvpi : Real.pi * (1 / 3000) ≤ Real.pi := by linarith
    have hs1 := sin_sq_le (Real.pi * (1 / 3600)) hu0 hupi
    have hs2 := sin_sq_le (Real.pi * (1 / 3000)) hv0.le hvpi
    have hc1le : Real.cos ((3 : ℝ) / 10 * (Real.pi / 180)) ≤ 1 := Real.cos_le_one _
    have hc3le : Real.cos ((2 : ℝ) / 5 * (Real.pi / 180)) ≤ 1 := Real.cos_le_one _
    have hc10 : 0 ≤ Real.cos ((3 : ℝ) / 10 * (Real.pi / 180)) := by linarith
    have hc30 : 0 ≤ Real.cos ((2 : ℝ) / 5 * (Real.pi / 180)) := by linarith
    nlinarith [hs1, hs2, mul_le_one₀ hc1le hc30 hc3le, mul_nonneg hc10 hc30,
      mul_self_nonneg (Real.sin (Real.pi * (1 / 3000))), hpisq]
  have ha0 : 0 ≤ havA (3 / 10 : ℝ) (1629 / 50) (2 / 5) (327 / 10) :=
    le_trans (by positivity) halow
  rw [haversine_eq, jsAtan2_sqrt _ ha0 hup]
  have harc := le_arcsin_sqrt (havA (3 / 10 : ℝ) (1629 / 50) (2 / 5) (327 / 10))
    (3 / 12742) (by norm_num) (by linarith) halow
  linarith

/-- Rounding to two decimals keeps values below a whole number of hundredths. -/
theorem round2_le_of_le (x : ℝ) (h : x ≤ 2) : round2 x ≤ 2 := by
  rw [round2]
  have h1 : round (x * 100) ≤ round (((200 : ℤ) : ℝ)) := by
    rw [round_eq, round_eq]
    exact Int.floor_mono (by push_cast; linarith)
  rw [round_intCast] at h1
  have h2 : ((round (x * 100) : ℤ) : ℝ) ≤ 200 := by exact_mod_cast h1
  linarith

/-- Rounding to two decimals keeps values above a whole number of hundredths. -/
theorem le_round2_of_le (x : ℝ) (h : 3 ≤ x) : 3 ≤ round2 x := by
  rw [round2]
  have h1 : round (((300 : ℤ) : ℝ)) ≤ round (x * 100) := by
    rw [round_eq, round_eq]
    exact Int.floor_mono (by push_cast; linarith)
  rw [round_intCast] at h1
  have h2 : (300 : ℝ) ≤ ((round (x * 100) : ℤ) : ℝ) := by exact_mod_cast h1
  linarith

/-- Distance annotation of scenario listing A, with the casts normalised. -/
theorem annA_dist : (annotate posKampala resA).distance =
    some (JSNum.val (round2 (haversine (3 / 10 : ℝ) (1629 / 50) (31 / 100) (3259 / 100)))) := by
  simp only [annotate, posKampala, resA]
  norm_num

/-- Distance annotation of scenario listing B, with the casts normalised. -/
theorem annB_dist : (annotate posKampala resB).distance =
    some (JSNum.val (round2 (haversine (3 / 10 : ℝ) (1629 / 50) (2 / 5) (327 / 10)))) := by
  simp only [annotate, posKampala, resB]
  norm_num

/-- Scenario listing C is annotated with NaN. -/
theorem annC_dist : (annotate posKampala resC).distance = some JSNum.nan := rfl

/-- The annotated A sorts before the annotated B: its rounded distance is at
most 2 km, B's at least 3 km. -/
theorem sortLe_annA_annB : sortLe (annotate posKampala resA) (annotate posKampala resB) := by
  rw [sortLe_val _ _ _ _ annA_dist annB_dist]
  have h1 := round2_le_of_le _ hav_A_le_two
  have h2 := le_round2_of_le _ hav_B_ge_three
  linarith

/-- The annotated B sorts (weakly) before the NaN-annotated C. -/
theorem sortLe_annB_annC : sortLe (annotate posKampala resB) (annotate posKampala resC) :=
  sortLe_of_nan_right (annotate posKampala resC) rfl (annotate posKampala resB)

/-- Evaluation of the specification scenario: the sort yields A, B, C. -/
theorem scenario_eval : sortByDistance (some posKampala) [resA, resB, resC] =
    [annotate posKampala resA, annotate posKampala resB, annotate posKampala resC] := by
  show List.insertionSort sortLe
      [annotate posKampala resA, annotate posKampala resB, annotate posKampala resC] = _
  rw [show List.insertionSort sortLe [annotate posKampala resA, annotate posKampala resB,
      annotate posKampala resC] =
    List.orderedInsert sortLe (annotate posKampala resA)
      (List.orderedInsert sortLe (annotate posKampala resB)
        [annotate posKampala resC]) from rfl]
  rw [List.orderedInsert_of_le sortLe [] sortLe_annB_annC,
    List.orderedInsert_of_le sortLe [annotate posKampala resC] sortLe_annA_annB]

/-- C1 counterexample: with the active position of the scenario and the input
[C, A] (C has no coordinates), the output keeps C first — not appended after
the distance-bearing A — and C carries a `distance` annotation (NaN), not no
annotation. -/
theorem sortByDistance_nan_counterexample :
    (sortByDistance (some posKampala) [resC, resA]).map
        (fun x => (x.id, x.distance.isSome)) = [(3, true), (1, true)] := by
  show (List.insertionSort sortLe
      [annotate posKampala resC, annotate posKampala resA]).map _ = _
  rw [show List.insertionSort sortLe [annotate posKampala resC, annotate posKampala resA] =
    List.orderedInsert sortLe (annotate posKampala resC)
      [annotate posKampala resA] from rfl]
  rw [List.orderedInsert_of_le sortLe []
    (sortLe_of_nan_left (annotate posKampala resC) rfl (annotate posKampala resA))]
  rfl

/-- C1 amended: with a position active, `sortByDistance` annotates every
listing, the coordinate-less ones with distance NaN; since the NaN comparator
result counts as 0, the stable sort leaves coordinate-less listings in their
relative input positions (not necessarily after the distance-bearing ones);
and on the scenario [A, B, C] the output is in order [A, B, C] with A's
distance smaller than B's and C last carrying a NaN distance. -/
theorem sortByDistance_nan_amended :
    (∀ (pos : LatLng) (l : List Listing), ∀ x ∈ sortByDistance (some pos) l,
      x.distance.isSome = true) ∧
    (∀ (pos : LatLng) (l : List Listing), ∀ x ∈ sortByDistance (some pos) l,
      (x.lat = none ∨ x.lng = none) → x.distance = some JSNum.nan) ∧
    (∀ (pos : LatLng) (l : List Listing),
      ((sortByDistance (some pos) l).filter (fun x => !hasCoordsB x)).map Listing.id =
        (l.filter (fun x => !hasCoordsB x)).map Listing.id) ∧
    (sortByDistance (some posKampala) [resA, resB, resC]).map Listing.id = [1, 2, 3] ∧
    (∃ p q : ℝ,
      (sortByDistance (some posKampala) [resA, resB, resC]).map Listing.distance =
        [some (JSNum.val p), some (JSNum.val q), some JSNum.nan] ∧ p < q) := by
  have hann_nan : ∀ (pos : LatLng) (y : Listing), (y.lat = none ∨ y.lng = none) →
      (annotate pos y).distance = some JSNum.nan := by
    intro pos y h
    rcases h with h | h
    · cases h2 : y.lng <;> simp [annotate, h, h2]
    · cases h2 : y.lat <;> simp [annotate, h, h2]
  refine ⟨?_, ?_, ?_, ?_, ?_⟩
  · intro pos l x hx
    rcases List.mem_map.mp ((List.mem_insertionSort sortLe).mp hx) with ⟨y, _, rfl⟩
    rfl
  · intro pos l x hx h
    rcases List.mem_map.mp ((List.mem_insertionSort sortLe).mp hx) with ⟨y, _, rfl⟩
    exact hann_nan pos y h
  · intro pos l
    show ((List.insertionSort sortLe (l.map (annotate pos))).filter _).map _ = _
    have hp : ∀ x ∈ l.map (annotate pos), (!hasCoordsB x) = true → ∀ y, sortLe x y := by
      intro x hx hpx y
      rcases List.mem_map.mp hx with ⟨z, _, rfl⟩
      apply sortLe_of_nan_left
      have hz : z.lat = none ∨ z.lng = none := by
        have : hasCoordsB z = false := by
          have : hasCoordsB (annotate pos z) = false := by
            cases h : hasCoordsB (annotate pos z)
            · rfl
            · rw [h] at hpx; exact absurd hpx (by simp)
          exact this
        rw [hasCoordsB, Bool.and_eq_false_iff] at this
        rcases this with h | h
        · exact Or.inl (Option.not_isSome_iff_eq_none.mp (by simp [h]))
        · exact Or.inr (Option.not_isSome_iff_eq_none.mp (by simp [h]))
      rw [jsOfOpt, hann_nan pos z hz]
      rfl
    rw [filter_insertionSort_invariant sortLe _ (l.map (annotate pos)) hp]
    rw [List.filter_map, List.map_map]
    have h1 : ((fun x => !hasCoordsB x) ∘ annotate pos) = fun x => !hasCoordsB x :=
      funext fun x => rfl
    have h2 : (Listing.id ∘ annotate pos) = Listing.id := funext fun x => rfl
    rw [h1, h2]
  · rw [scenario_eval]
    rfl
  · refine ⟨round2 (haversine (3 / 10 : ℝ) (1629 / 50) (31 / 100) (3259 / 100)),
      round2 (haversine (3 / 10 : ℝ) (1629 / 50) (2 / 5) (327 / 10)), ?_, ?_⟩
    · rw [scenario_eval]
      simp only [List.map]
      rw [annA_dist, annB_dist, annC_dist]
    · have h1 := round2_le_of_le _ hav_A_le_two
      have h2 := le_round2_of_le _ hav_B_ge_three
      linarith

end Nyama
